import Mathlib

/-!
Shallow embedding of the WA business agent's knowledge-acquisition layer
(`src/knowledge_base/wa_scraper.py`), its persistence layer
(`src/database/db.py`) and the formation-flow graph synthesizer
(`src/agent/business_agent.py`), together with proofs about the embedded
operations.

Conventions of the embedding:
* Python strings are Lean `String`s; text that the code scans for keywords
  is viewed through `String.toList` so that substring containment is the
  `List.IsInfix` relation.
* Dollar amounts and wages are `ℚ` (Python floats here always carry exact
  decimal values such as 90.0 or 16.66).
* Python exceptions are the `Except` monad: a function that can raise
  returns `Except ScrapErr α`, a `try/except` block is a `match` on that
  value.
* The network is abstracted by its observable outcome: each page fetched by
  `_fetch_page` enters the model as an `Except ScrapErr page` argument,
  where `page` carries the results that the BeautifulSoup/regex extraction
  of the corresponding accessor reads off the parsed document.
* The TTL cache is a list of (key, value, expiry) triples plus the current
  time `now : Nat`; calls additionally report how often the producer
  closure ran, which instruments the cache behaviour without changing it.
-/

deriving instance DecidableEq for Except

namespace WaBusiness

/-- Python `needle in hay` for strings: substring containment, on the
character-list view of the haystack. -/
def pyContains (hay : List Char) (needle : String) : Bool :=
  decide (needle.toList <:+: hay)

/-- Exceptions escaping `_fetch_page` or the extraction code
(`requests.RequestException`, parse failures, ...). -/
inductive ScrapErr where
  | fetchError
  | parseError
deriving DecidableEq

/-- `WABusinessScraper.base_url` (wa_scraper.py line 16). -/
def base_url : String := "https://www.business.wa.gov"

/-- `WABusinessScraper._normalize_url` (wa_scraper.py lines 245-252). -/
def normalize_url (url : String) : String :=
  if url.startsWith "http" then url
  else if url.startsWith "/" then base_url ++ url
  else base_url ++ "/" ++ url

/-- `WABusinessScraper._get_default_minimum_wage` (wa_scraper.py 254-266). -/
def default_minimum_wage : List (String × ℚ) :=
  [("washington", 16.66), ("seattle", 20.76), ("seatac", 20.17),
   ("tukwila", 21.10), ("burien", 21.16), ("bellingham", 17.66),
   ("everett", 20.24), ("king_county", 20.29), ("renton", 20.90)]

/-- `WABusinessScraper._get_default_license_requirements` (wa_scraper.py
268-278); the fifth entry's mojibake is in the source. -/
def default_license_requirements : List String :=
  ["Business requires city/state endorsements",
   "Using business name different from legal name",
   "Planning to hire employees within 90 days",
   "Collecting sales tax",
   "Gross income â‰¥ $12,000 per year",
   "Required to pay taxes/fees to Department of Revenue",
   "Buyer/processor of specialty wood products"]

/-- `WABusinessScraper._get_default_fees` (wa_scraper.py 280-285). -/
def default_fees : List (String × ℚ) :=
  [("new_business", 90), ("additional", 19)]

/-- A link inside a FAQ answer (wa_scraper.py 207-211 / 293-299). -/
structure FaqLink where
  text : String
  value : String
  type : String
deriving DecidableEq

/-- A FAQ dictionary as `get_faqs` produces one: scraped FAQs
(wa_scraper.py 213-220) carry question/answer/links/metadata-id, the
shipped defaults (287-345) carry question/category/links; keys a given
shape does not set are `none`. -/
structure FaqEntry where
  question : String
  answer : Option String
  category : Option String
  links : List FaqLink
  id : Option String
deriving DecidableEq

/-- `WABusinessScraper._get_default_faqs` (wa_scraper.py 287-345). -/
def default_faqs : List FaqEntry :=
  [{ question := "What licenses do I need to start a business in Washington?",
     answer := none, category := some "licensing",
     links := [⟨"Business Licensing",
               "https://dor.wa.gov/open-business/apply-business-license",
               "external"⟩],
     id := none },
   { question := "What is the current minimum wage in Washington State?",
     answer := none, category := some "compliance",
     links := [⟨"Minimum Wage Requirements",
               "https://www.lni.wa.gov/workers-rights/wages/minimum-wage/",
               "external"⟩],
     id := none },
   { question := "How do I register my business for taxes in Washington?",
     answer := none, category := some "taxes",
     links := [⟨"Business Tax Registration",
               "https://dor.wa.gov/taxes-rates", "external"⟩],
     id := none },
   { question := "What business structure should I choose?",
     answer := none, category := some "planning",
     links := [⟨"Business Structures Guide",
               "https://www.sos.wa.gov/corps/limited-liability-companies-limited-partnerships-and-limited-liability-partnerships.aspx",
               "external"⟩],
     id := none },
   { question := "Do I need workers' compensation insurance?",
     answer := none, category := some "insurance",
     links := [⟨"Workers' Compensation Information",
               "https://www.lni.wa.gov/insurance/insurance-requirements/",
               "external"⟩],
     id := none }]

/-- A resource-link record as `get_resource_links` builds one
(wa_scraper.py 380-385). -/
structure ResourceLink where
  title : String
  url : String
  aria_label : String
  category : String
deriving DecidableEq

/-- The licensing keywords of `_categorize_resource` (wa_scraper.py 426-430). -/
def licensingWords : List String :=
  ["license", "permit", "registration", "business service", "endorsement",
   "certification", "regulatory", "compliance", "filing", "register",
   "dor.wa.gov", "ubi", "tax", "revenue"]

/-- The planning keywords of `_categorize_resource` (wa_scraper.py 434-438). -/
def planningWords : List String :=
  ["plan", "start", "opening", "checklist", "strategy", "roadmap",
   "preparation", "setup", "establish", "launch", "assessment",
   "business-plan", "startup", "planning", "market-research"]

/-- The tools keywords of `_categorize_resource` (wa_scraper.py 442-446). -/
def toolsWords : List String :=
  ["calculator", "payroll", "assistance tools", "wizard", "estimator",
   "forms", "templates", "software", "portal", "system", "finder",
   "tool", "app", "application", "secure.dor", "bls.dor"]

/-- The guidance keywords of `_categorize_resource` (wa_scraper.py 450-455). -/
def guidanceWords : List String :=
  ["guide", "liaison", "questions", "research", "contact", "help",
   "support", "assistance", "resources", "information", "faq", "learn",
   "education", "training", "mentor", "consult", "handbook", "manual",
   "small-business-guide", "help.business", "sbdc", "score"]

/-- The combined lowercased search text of `_categorize_resource`
(wa_scraper.py 419-423). -/
def searchTextOf (title url : String) : List Char :=
  title.toList.map Char.toLower ++ ' ' :: url.toList.map Char.toLower

/-- `WABusinessScraper._categorize_resource` (wa_scraper.py 417-459). -/
def categorize_resource (title url : String) : String :=
  let t := searchTextOf title url
  if licensingWords.any (fun w => pyContains t w) then "licensing"
  else if planningWords.any (fun w => pyContains t w) then "planning"
  else if toolsWords.any (fun w => pyContains t w) then "tools"
  else if guidanceWords.any (fun w => pyContains t w) then "guidance"
  else "other"

/-- `WABusinessScraper._get_default_resource_links` (wa_scraper.py 461-482). -/
def default_resource_links : List ResourceLink :=
  [{ title := "Business License Wizard",
     url := "https://secure.dor.wa.gov/gteunauth/?Link=wiz",
     aria_label := "Business License Wizard", category := "licensing" },
   { title := "Small Business Guide",
     url := base_url ++ "/site/alias__business/875/Home.aspx#anchor-3574",
     aria_label := "Small Business Guide", category := "guidance" },
   { title := "Starting a Business",
     url := base_url ++ "/site/alias__business/876/Small-Business-Guide--Start.aspx",
     aria_label := "Starting a Business", category := "planning" }]

/-- A cache value: the payload of one of the five fact categories. -/
inductive Val where
  | wages (w : List (String × ℚ))
  | reqs (r : List String)
  | fees (f : List (String × ℚ))
  | faqs (f : List FaqEntry)
  | links (l : List ResourceLink)
deriving DecidableEq

/-- `cachetools.TTLCache(maxsize=100, ttl=3600)` (wa_scraper.py line 17) as
a list of (key, value, expiry) triples. An entry is visible while
`now < expiry`. Only the five fact-category keys are ever used, so the
capacity bound of 100 can never trigger and is not modelled. -/
abbrev Cache := List (String × Val × Nat)

/-- The cache's time-to-live in seconds (wa_scraper.py line 17). -/
def ttl : Nat := 3600

/-- `key in self.cache` / `self.cache[key]` for a TTL cache: an expired
entry counts as absent. -/
def cacheLookup (c : Cache) (key : String) (now : Nat) : Option Val :=
  (c.find? (fun e => e.1 == key && decide (now < e.2.2))).map (fun e => e.2.1)

/-- `self.cache[key] = v` at time `now`: the new entry expires at
`now + ttl` and replaces any previous entry under the key. -/
def cacheInsert (c : Cache) (key : String) (v : Val) (now : Nat) : Cache :=
  (key, v, now + ttl) :: c.filter (fun e => !(e.1 == key))

/-- `WABusinessScraper.clear_cache` (wa_scraper.py 347-349). -/
def clear_cache (_ : Cache) : Cache := []

/-- The per-key static defaults of `_get_cached_or_fetch`'s `except` branch
(wa_scraper.py 31-38); a key outside the chain re-raises (line 39). -/
def defaultFor : String → Option Val
  | "minimum_wage" => some (.wages default_minimum_wage)
  | "license_requirements" => some (.reqs default_license_requirements)
  | "fees" => some (.fees default_fees)
  | "faqs" => some (.faqs default_faqs)
  | _ => none

/-- Result of one `_get_cached_or_fetch` call: the returned value (or the
propagated exception), the cache afterwards, and how many times the
producer closure ran. -/
structure FetchOut where
  result : Except ScrapErr Val
  cache : Cache
  fetchCount : Nat

/-- `WABusinessScraper._get_cached_or_fetch` (wa_scraper.py 24-40). -/
def get_cached_or_fetch (c : Cache) (key : String)
    (fetch_func : Unit → Except ScrapErr Val) (now : Nat) : FetchOut :=
  match cacheLookup c key now with
  | some v => ⟨.ok v, c, 0⟩
  | none =>
    match fetch_func () with
    | .ok v => ⟨.ok v, cacheInsert c key v now, 1⟩
    | .error e =>
      match defaultFor key with
      | some d => ⟨.ok d, c, 1⟩
      | none => ⟨.error e, c, 1⟩

/-- The city patterns of `get_minimum_wage`, in dict order
(wa_scraper.py 70-79). -/
def city_names : List String :=
  ["seattle", "seatac", "tukwila", "burien", "bellingham", "everett",
   "king_county", "renton"]

/-- The body of `get_minimum_wage`'s local `fetch` up to its `except`
clause (wa_scraper.py 55-93). The two `_fetch_page` calls are abstracted
by their outcomes: `sp` is the state page's outcome together with the
result of the "The 2025 Minimum Wage" section lookup and wage-pattern
match (59-64, `some w` iff the section was found and the pattern matched),
`lp` the local page's outcome together with the per-city pattern match
results (67-87). -/
def min_wage_fetch_body (sp : Except ScrapErr (Option ℚ))
    (lp : Except ScrapErr (String → Option ℚ)) :
    Except ScrapErr (List (String × ℚ)) :=
  match sp with
  | .error e => .error e
  | .ok stateWage =>
    match lp with
    | .error e => .error e
    | .ok cityMatch =>
      let wageData :=
        (match stateWage with
         | some w => [("washington", w)]
         | none => []) ++
        city_names.filterMap (fun city => (cityMatch city).map (fun w => (city, w)))
      if wageData.isEmpty then .ok default_minimum_wage else .ok wageData

/-- `get_minimum_wage`'s local `fetch` with its `try/except` wrapper
(wa_scraper.py 54-96): any exception is converted to the defaults. -/
def min_wage_fetch (sp : Except ScrapErr (Option ℚ))
    (lp : Except ScrapErr (String → Option ℚ)) :
    Except ScrapErr (List (String × ℚ)) :=
  match min_wage_fetch_body sp lp with
  | .ok v => .ok v
  | .error _ => .ok default_minimum_wage

/-- `WABusinessScraper.get_minimum_wage` (wa_scraper.py 52-98). -/
def get_minimum_wage (c : Cache) (sp : Except ScrapErr (Option ℚ))
    (lp : Except ScrapErr (String → Option ℚ)) (now : Nat) : FetchOut :=
  get_cached_or_fetch c "minimum_wage"
    (fun _ => (min_wage_fetch sp lp).map Val.wages) now

/-- The body of `get_license_requirements`'s local `fetch` up to its
`except` clause (wa_scraper.py 103-117). The page is abstracted by its
outcome together with the "Who needs a business license" section lookup:
`some items` iff the section was found, with the texts extracted from it
(108-115). -/
def license_fetch_body (page : Except ScrapErr (Option (List String))) :
    Except ScrapErr (List String) :=
  match page with
  | .error e => .error e
  | .ok sec =>
    let requirements := sec.getD []
    if requirements.isEmpty then .ok default_license_requirements else .ok requirements

/-- `get_license_requirements`'s local `fetch` with its `try/except`
wrapper (wa_scraper.py 102-120). -/
def license_fetch (page : Except ScrapErr (Option (List String))) :
    Except ScrapErr (List String) :=
  match license_fetch_body page with
  | .ok v => .ok v
  | .error _ => .ok default_license_requirements

/-- `WABusinessScraper.get_license_requirements` (wa_scraper.py 100-122). -/
def get_license_requirements (c : Cache)
    (page : Except ScrapErr (Option (List String))) (now : Nat) : FetchOut :=
  get_cached_or_fetch c "license_requirements"
    (fun _ => (license_fetch page).map Val.reqs) now

/-- Python dict assignment `d[k] = v` on an association list: replace in
place, append a new key at the end. -/
def dictInsert (d : List (String × ℚ)) (k : String) (v : ℚ) :
    List (String × ℚ) :=
  if d.any (fun kv => kv.1 == k) then
    d.map (fun kv => if kv.1 == k then (k, v) else kv)
  else d ++ [(k, v)]

/-- The fee-extraction loop of `get_fees` (wa_scraper.py 135-141):
`amounts` are the integer dollar amounts the currency pattern finds in the
fees section, in order; an amount equal to 90 is stored under
`new_business`, one equal to 19 under `additional`, anything else is
dropped. -/
def build_fees : List Nat → List (String × ℚ) → List (String × ℚ)
  | [], fees => fees
  | a :: rest, fees =>
    build_fees rest
      (if a == 90 then dictInsert fees "new_business" (a : ℚ)
       else if a == 19 then dictInsert fees "additional" (a : ℚ)
       else fees)

/-- The body of `get_fees`'s local `fetch` up to its `except` clause
(wa_scraper.py 127-143). The page is abstracted by its outcome together
with the "business license application" section lookup: `some amounts` iff
the section was found, with the integer dollar amounts in its text. -/
def fees_fetch_body (page : Except ScrapErr (Option (List Nat))) :
    Except ScrapErr (List (String × ℚ)) :=
  match page with
  | .error e => .error e
  | .ok sec =>
    let fees := match sec with
      | some amounts => build_fees amounts []
      | none => []
    if fees.isEmpty then .ok default_fees else .ok fees

/-- `get_fees`'s local `fetch` with its `try/except` wrapper
(wa_scraper.py 126-146). -/
def fees_fetch (page : Except ScrapErr (Option (List Nat))) :
    Except ScrapErr (List (String × ℚ)) :=
  match fees_fetch_body page with
  | .ok v => .ok v
  | .error _ => .ok default_fees

/-- `WABusinessScraper.get_fees` (wa_scraper.py 124-148). -/
def get_fees (c : Cache) (page : Except ScrapErr (Option (List Nat)))
    (now : Nat) : FetchOut :=
  get_cached_or_fetch c "fees" (fun _ => (fees_fetch page).map Val.fees) now

/-- The body of `get_faqs`'s local `fetch` up to its `except` clause
(wa_scraper.py 153-230). The page is abstracted by its outcome together
with the list of FAQ entries the card traversal (158-222) assembles from
it; an empty list covers both "no FAQ section" and "no usable cards". -/
def faqs_fetch_body (page : Except ScrapErr (List FaqEntry)) :
    Except ScrapErr (List FaqEntry) :=
  match page with
  | .error e => .error e
  | .ok faqs => if faqs.isEmpty then .ok default_faqs else .ok faqs

/-- `get_faqs`'s local `fetch` with its `try/except` wrapper
(wa_scraper.py 152-233). -/
def faqs_fetch (page : Except ScrapErr (List FaqEntry)) :
    Except ScrapErr (List FaqEntry) :=
  match faqs_fetch_body page with
  | .ok v => .ok v
  | .error _ => .ok default_faqs

/-- `WABusinessScraper.get_faqs` (wa_scraper.py 150-235). -/
def get_faqs (c : Cache) (page : Except ScrapErr (List FaqEntry))
    (now : Nat) : FetchOut :=
  get_cached_or_fetch c "faqs" (fun _ => (faqs_fetch page).map Val.faqs) now

/-- A link box of the resources section as the extraction reads it
(wa_scraper.py 374-383): title text (stripped), anchor href and
aria-label. Only boxes that have both a title and a link enter the list. -/
structure RawResource where
  title : String
  href : String
  aria : String
deriving DecidableEq

/-- The body of `get_resource_links`'s local `fetch` up to its `except`
clause (wa_scraper.py 362-402). The page is abstracted by its outcome
together with the link boxes found in the resources section. The
best-effort database save (389-392) and CSV export (397-400) are each
guarded by their own `try/except` in the source and cannot change the
returned value, so they are not modelled. -/
def resources_fetch_body (page : Except ScrapErr (List RawResource)) :
    Except ScrapErr (List ResourceLink) :=
  match page with
  | .error e => .error e
  | .ok boxes =>
    let resources := boxes.map (fun b =>
      { title := b.title, url := normalize_url b.href, aria_label := b.aria,
        category := categorize_resource b.title b.href : ResourceLink })
    if resources.isEmpty then .ok default_resource_links else .ok resources

/-- `get_resource_links`'s local `fetch` with its `try/except` wrapper
(wa_scraper.py 361-405). -/
def resources_fetch (page : Except ScrapErr (List RawResource)) :
    Except ScrapErr (List ResourceLink) :=
  match resources_fetch_body page with
  | .ok v => .ok v
  | .error _ => .ok default_resource_links

/-- `WABusinessScraper.get_resource_links` (wa_scraper.py 359-407). -/
def get_resource_links (c : Cache) (page : Except ScrapErr (List RawResource))
    (now : Nat) : FetchOut :=
  get_cached_or_fetch c "resource_links"
    (fun _ => (resources_fetch page).map Val.links) now

/-! ## The persistence layer (`src/database/db.py`)

The SQLite tables `faqs` and `links` and the JSON content directory are
modelled as in-memory lists. Both tables are rowid tables, and the code
queries them without ORDER BY, so SQLite returns rows in rowid order:
INSERT OR REPLACE deletes the old row and appends the new one, plain
INSERT appends. Timestamp columns play no role in any claim and are not
modelled. -/

/-- A link passed to `save_faq` inside `faq['links']` (db.py 104-108). -/
structure LinkInput where
  text : String
  value : String
  type : String
deriving DecidableEq

/-- The argument of `save_faq` (db.py 79-108), with `faq['metadata']['id']`
flattened into the `id` field. -/
structure FaqInput where
  id : String
  question : String
  answer : String
  html_answer : String
  category : String
  links : List LinkInput
deriving DecidableEq

/-- A row of the `faqs` table (db.py 29-38, timestamps omitted). -/
structure FaqRow where
  id : String
  question : String
  category : String
  content_file : String
deriving DecidableEq

/-- A row of the `links` table (db.py 41-50); the autoincrement rowid is
the position in the list. -/
structure LinkRow where
  faq_id : String
  text : String
  value : String
  type : String
deriving DecidableEq

/-- The JSON blob `save_faq` writes beside the row (db.py 85-90). -/
structure FaqContent where
  answer : String
  html_answer : String
deriving DecidableEq

/-- The database file plus the JSON content directory. -/
structure DBState where
  faqs : List FaqRow
  links : List LinkRow
  files : List (String × FaqContent)
deriving DecidableEq

/-- `Database.save_faq` (db.py 79-108): write the content file, upsert the
FAQ row, delete the old links of the id, insert the new ones. -/
def save_faq (st : DBState) (faq : FaqInput) : DBState :=
  let content_file := "faq_" ++ faq.id ++ ".json"
  { faqs := st.faqs.filter (fun r => !(r.id == faq.id)) ++
      [⟨faq.id, faq.question, faq.category, content_file⟩],
    links := st.links.filter (fun l => !(l.faq_id == faq.id)) ++
      faq.links.map (fun l => ⟨faq.id, l.text, l.value, l.type⟩),
    files := (content_file, ⟨faq.answer, faq.html_answer⟩) ::
      st.files.filter (fun f => !(f.1 == content_file)) }

/-- What `Database.get_faq` returns for an id (db.py 130-141, timestamps
omitted). -/
structure FaqOut where
  question : String
  answer : String
  html_answer : String
  category : String
  links : List LinkRow
  id : String
deriving DecidableEq

/-- `Database.get_faq` (db.py 110-141). `none` models both "no such row"
(118-119) and the file error a missing content blob would raise. -/
def get_faq (st : DBState) (faq_id : String) : Option FaqOut := do
  let row ← st.faqs.find? (fun r => r.id == faq_id)
  let content ← (st.files.find? (fun f => f.1 == row.content_file)).map Prod.snd
  pure { question := row.question, answer := content.answer,
         html_answer := content.html_answer, category := row.category,
         links := st.links.filter (fun l => l.faq_id == faq_id),
         id := row.id }

/-- The links the store associates with an id: the `links`-table query of
`get_faq` (db.py 122-124). -/
def links_of (st : DBState) (faq_id : String) : List LinkRow :=
  st.links.filter (fun l => l.faq_id == faq_id)

/-! ## The flow-graph synthesizer (`src/agent/business_agent.py`)

Node ids in the source are the strings `"start"`, `"structure"`,
`f"step_{idx}"` and `f"parallel_{idx}_{p_idx}"`; this four-constructor
inductive carries the same information (the rendering into strings is
injective, decimal indices included). -/

/-- A node id of `generate_formation_flow` (business_agent.py 383-418). -/
inductive NodeId where
  | start
  | struct
  | step (idx : Nat)
  | parallel (idx pidx : Nat)
deriving DecidableEq

/-- A parallel sub-step (one level of nesting: the loop at
business_agent.py 411-418 reads only `title` and `category` of each). -/
structure SubStep where
  title : String
  category : String
deriving DecidableEq

/-- A formation step as the catalogs of `_get_formation_steps` list them:
`parallel_steps` is `some l` iff the dict has the key. -/
structure Step where
  title : String
  category : String
  parallel_steps : Option (List SubStep)
deriving DecidableEq

/-- A node of the flow graph (business_agent.py 383, 389-393, 400-404). -/
structure FlowNode where
  id : NodeId
  text : String
  style : String
deriving DecidableEq

/-- The graph `generate_formation_flow` returns. -/
structure FlowGraph where
  nodes : List FlowNode
  edges : List (NodeId × NodeId)
deriving DecidableEq

/-- `BusinessAgent._get_step_style` (business_agent.py 570-580). -/
def get_step_style (category : String) : String :=
  let c := category.toLower
  if c == "legal" then "fill:#ddf"
  else if c == "financial" then "fill:#ffe"
  else if c == "administrative" then "fill:#ddf"
  else if c == "compliance" then "fill:#bfb"
  else "fill:#ddf"

/-- The inner loop over `step["parallel_steps"]` (business_agent.py
411-418), node part: one node `parallel_{i}_{j}` per sub-step. -/
def parallelNodes (i : Nat) : Nat → List SubStep → List FlowNode
  | _, [] => []
  | j, p :: ps =>
    ⟨.parallel i j, p.title, get_step_style p.category⟩ :: parallelNodes i (j + 1) ps

/-- The inner loop over `step["parallel_steps"]` (business_agent.py
411-418), edge part: each sub-step hangs off its parent step's node. -/
def parallelEdges (i : Nat) : Nat → List SubStep → List (NodeId × NodeId)
  | _, [] => []
  | j, _ :: ps => (NodeId.step i, NodeId.parallel i j) :: parallelEdges i (j + 1) ps

/-- The main loop of `generate_formation_flow` (business_agent.py
397-420): one node per step connected to the previous sequential node,
parallel sub-steps branching off it, the step node becoming the new
sequential anchor. -/
def processSteps (last : NodeId) (idx : Nat) :
    List Step → List FlowNode × List (NodeId × NodeId)
  | [] => ([], [])
  | s :: rest =>
    (⟨NodeId.step idx, s.title, get_step_style s.category⟩ ::
       (match s.parallel_steps with
        | some ps => parallelNodes idx 0 ps
        | none => []) ++ (processSteps (NodeId.step idx) (idx + 1) rest).1,
     (last, NodeId.step idx) ::
       (match s.parallel_steps with
        | some ps => parallelEdges idx 0 ps
        | none => []) ++ (processSteps (NodeId.step idx) (idx + 1) rest).2)

/-- Python `str.title()` for ASCII text: the first letter of every word is
uppercased, the following letters lowercased. -/
def pyTitle : List Char → List Char :=
  let rec go (prevAlpha : Bool) : List Char → List Char
    | [] => []
    | c :: cs => (if prevAlpha then c.toLower else c.toUpper) :: go c.isAlpha cs
  go false

/-- The normalization at the top of `generate_formation_flow`
(business_agent.py 377): lowercase, then underscores to spaces (Python
`str.replace` with single-character arguments maps each character). -/
def normalizeBT (bt : String) : List Char :=
  (bt.toList.map Char.toLower).map (fun c => if c == '_' then ' ' else c)

/-- `generate_formation_flow`'s graph construction (business_agent.py
382-422) over an already-resolved step list. -/
def generate_flow_from_steps (btNorm : List Char) (steps : List Step) : FlowGraph :=
  { nodes := ⟨NodeId.start, "Start", "fill:#f9f"⟩ ::
      ⟨NodeId.struct, (pyTitle btNorm).asString ++ " Structure", "fill:#bbf"⟩ ::
      (processSteps NodeId.struct 0 steps).1,
    edges := (NodeId.start, NodeId.struct) :: (processSteps NodeId.struct 0 steps).2 }

/-- The rideshare catalog of `_get_formation_steps` (business_agent.py
431-465). -/
def rideshareCatalog : List Step :=
  [⟨"Register as a Sole Proprietorship or LLC", "legal", none⟩,
   ⟨"Get UBI Number", "administrative", none⟩,
   ⟨"Federal EIN (Optional for Sole Proprietorship)", "administrative", none⟩,
   ⟨"Business License", "legal", none⟩,
   ⟨"Vehicle Requirements", "compliance", some
     [⟨"Vehicle Registration and Insurance", "compliance"⟩,
      ⟨"Vehicle Inspection", "compliance"⟩,
      ⟨"For-Hire Vehicle Endorsement", "legal"⟩]⟩,
   ⟨"Driver Requirements", "compliance", some
     [⟨"For-Hire Driver's License", "legal"⟩,
      ⟨"Background Check", "compliance"⟩,
      ⟨"Medical Examination", "compliance"⟩]⟩,
   ⟨"Platform Setup", "administrative", some
     [⟨"Sign up with Uber/Lyft", "administrative"⟩,
      ⟨"Complete Platform Training", "administrative"⟩,
      ⟨"Set Up Payment Processing", "financial"⟩]⟩,
   ⟨"Business Insurance", "compliance", none⟩,
   ⟨"Tax Registration", "financial", none⟩]

/-- The food-truck catalog of `_get_formation_steps` (business_agent.py
469-496). -/
def foodTruckCatalog : List Step :=
  [⟨"Choose Business Structure", "legal", none⟩,
   ⟨"Register Business Name", "administrative", none⟩,
   ⟨"Get UBI Number", "administrative", none⟩,
   ⟨"Federal EIN", "administrative", none⟩,
   ⟨"Business License", "legal", none⟩,
   ⟨"Food Service Permits", "compliance", some
     [⟨"Food Worker Card", "compliance"⟩,
      ⟨"Mobile Food Unit Permit", "compliance"⟩,
      ⟨"Health Department Inspection", "compliance"⟩]⟩,
   ⟨"Vehicle Requirements", "compliance", some
     [⟨"Vehicle Registration", "administrative"⟩,
      ⟨"Vehicle Inspection", "compliance"⟩,
      ⟨"Equipment Installation", "compliance"⟩]⟩,
   ⟨"Location Permits", "compliance", none⟩,
   ⟨"Business Insurance", "compliance", none⟩,
   ⟨"Sales Tax Registration", "financial", none⟩]

/-- The hair-salon catalog of `_get_formation_steps` (business_agent.py
500-537). -/
def hairSalonCatalog : List Step :=
  [⟨"Choose Business Structure", "legal", none⟩,
   ⟨"Register Business Name", "administrative", none⟩,
   ⟨"Get UBI Number", "administrative", none⟩,
   ⟨"Federal EIN", "administrative", none⟩,
   ⟨"Business License", "legal", none⟩,
   ⟨"Cosmetology Licenses", "compliance", some
     [⟨"Cosmetology License", "compliance"⟩,
      ⟨"Barber License (if applicable)", "compliance"⟩,
      ⟨"Esthetician License (if applicable)", "compliance"⟩]⟩,
   ⟨"Location Setup", "compliance", some
     [⟨"Find Suitable Location", "administrative"⟩,
      ⟨"Sign Lease Agreement", "legal"⟩,
      ⟨"Obtain Zoning Permits", "compliance"⟩]⟩,
   ⟨"Health & Safety Requirements", "compliance", some
     [⟨"Health Department Inspection", "compliance"⟩,
      ⟨"Fire Safety Inspection", "compliance"⟩,
      ⟨"Set Up Sanitation Stations", "compliance"⟩]⟩,
   ⟨"Equipment & Supplies", "administrative", none⟩,
   ⟨"Business Insurance", "compliance", none⟩,
   ⟨"Sales Tax Registration", "financial", none⟩,
   ⟨"Marketing & Advertising", "administrative", none⟩]

/-- The generic catalog of `_get_formation_steps` (business_agent.py
544-553; the identical literal at 559-568 is the `except` fallback). -/
def genericCatalog : List Step :=
  [⟨"Choose Business Structure", "legal", none⟩,
   ⟨"Register Business Name", "administrative", none⟩,
   ⟨"Get UBI Number", "administrative", none⟩,
   ⟨"Federal EIN", "administrative", none⟩,
   ⟨"Business License", "legal", none⟩,
   ⟨"Industry Permits", "compliance", none⟩,
   ⟨"Business Insurance", "compliance", none⟩,
   ⟨"Sales Tax Registration", "financial", none⟩]

/-- `BusinessAgent._get_formation_steps` (business_agent.py 424-568) on
the normalized business type. The final branch calls
`self._get_formation_steps_from_knowledge`, a method that is defined
nowhere in the repository, so the attribute lookup raises AttributeError
inside the `try` block and the `except` handler (556-568) returns the
generic catalog; that branch therefore always yields `genericCatalog`. -/
def get_formation_steps (btNorm : List Char) : List Step :=
  let b := btNorm.map Char.toLower
  if pyContains b "rideshare" || pyContains b "uber" || pyContains b "lyft" ||
      pyContains b "taxi" then
    rideshareCatalog
  else if pyContains b "food" && (pyContains b "truck" || pyContains b "cart" ||
      pyContains b "vendor" || pyContains b "mobile") then
    foodTruckCatalog
  else if pyContains b "hair" || pyContains b "salon" || pyContains b "barber" ||
      pyContains b "beauty" then
    hairSalonCatalog
  else
    genericCatalog

/-- `BusinessAgent.generate_formation_flow` (business_agent.py 372-422). -/
def generate_formation_flow (bt : String) : FlowGraph :=
  generate_flow_from_steps (normalizeBT bt) (get_formation_steps (normalizeBT bt))

/-- The specialized-catalog keywords `_get_formation_steps` recognizes
(business_agent.py 430, 468, 499): `truck`/`cart`/`vendor`/`mobile` only
select a catalog together with `food`, so a string containing none of the
listed words matches no specialized branch. -/
def recognizedKeywords : List String :=
  ["rideshare", "uber", "lyft", "taxi", "food", "truck", "cart", "vendor",
   "mobile", "hair", "salon", "barber", "beauty"]

/-! ## Derived graph notions used to state the flow-graph claims -/

/-- The ids of a graph's nodes, in node-list order. -/
def idsOf (g : FlowGraph) : List NodeId := g.nodes.map (fun n => n.id)

/-- The indegree of `v`: how many edges end in `v`. -/
def indeg (g : FlowGraph) (v : NodeId) : Nat := (g.edges.map Prod.snd).count v

/-- The node a non-start node is connected from in the construction: the
`structure` node hangs off `start`, each step node off its sequential
predecessor (the `structure` node for step 0, the previous step
otherwise), and each parallel sub-step node off its parent step's node.
(`parentOf .start` is arbitrary; `start` has no incoming edge.) -/
def parentOf : NodeId → NodeId
  | .start => .start
  | .struct => .start
  | .step 0 => .struct
  | .step (i + 1) => .step i
  | .parallel i _ => .step i

/-- Reachability along one or more edges of an edge list. -/
inductive Reach (es : List (NodeId × NodeId)) : NodeId → NodeId → Prop
  | edge {a b : NodeId} : (a, b) ∈ es → Reach es a b
  | tail {a b c : NodeId} : Reach es a b → (b, c) ∈ es → Reach es a c

/-- A rank function on node ids under which every constructed edge is
strictly increasing; used to derive acyclicity. -/
def rank : NodeId → Nat
  | .start => 0
  | .struct => 1
  | .step i => i + 2
  | .parallel i _ => i + 3

/-- The well-formedness package claimed for the synthesized graph: no
cycles, `start` present with the unique zero indegree, edges between
existing nodes, and every non-start node reached by exactly one edge,
from its sequential predecessor or parent step. -/
def flowWellFormed (g : FlowGraph) : Prop :=
  (∀ v, ¬ Reach g.edges v v) ∧
  (NodeId.start ∈ idsOf g ∧ ∀ v ∈ idsOf g, (indeg g v = 0 ↔ v = NodeId.start)) ∧
  (∀ e ∈ g.edges, e.1 ∈ idsOf g ∧ e.2 ∈ idsOf g) ∧
  (∀ v ∈ idsOf g, v ≠ NodeId.start →
    indeg g v = 1 ∧ ∀ e ∈ g.edges, e.2 = v → e.1 = parentOf v)

/-! ## Helper lemmas: the fetch closures never raise, and cache behaviour -/

theorem min_wage_fetch_isOk (sp : Except ScrapErr (Option ℚ))
    (lp : Except ScrapErr (String → Option ℚ)) :
    ∃ v, min_wage_fetch sp lp = .ok v := by
  cases hb : min_wage_fetch_body sp lp with
  | ok v => exact ⟨v, by unfold min_wage_fetch; rw [hb]⟩
  | error e => exact ⟨default_minimum_wage, by unfold min_wage_fetch; rw [hb]⟩

theorem license_fetch_isOk (page : Except ScrapErr (Option (List String))) :
    ∃ v, license_fetch page = .ok v := by
  cases hb : license_fetch_body page with
  | ok v => exact ⟨v, by unfold license_fetch; rw [hb]⟩
  | error e => exact ⟨default_license_requirements, by unfold license_fetch; rw [hb]⟩

theorem fees_fetch_isOk (page : Except ScrapErr (Option (List Nat))) :
    ∃ v, fees_fetch page = .ok v := by
  cases hb : fees_fetch_body page with
  | ok v => exact ⟨v, by unfold fees_fetch; rw [hb]⟩
  | error e => exact ⟨default_fees, by unfold fees_fetch; rw [hb]⟩

theorem faqs_fetch_isOk (page : Except ScrapErr (List FaqEntry)) :
    ∃ v, faqs_fetch page = .ok v := by
  cases hb : faqs_fetch_body page with
  | ok v => exact ⟨v, by unfold faqs_fetch; rw [hb]⟩
  | error e => exact ⟨default_faqs, by unfold faqs_fetch; rw [hb]⟩

theorem resources_fetch_isOk (page : Except ScrapErr (List RawResource)) :
    ∃ v, resources_fetch page = .ok v := by
  cases hb : resources_fetch_body page with
  | ok v => exact ⟨v, by unfold resources_fetch; rw [hb]⟩
  | error e => exact ⟨default_resource_links, by unfold resources_fetch; rw [hb]⟩

theorem cached_or_fetch_hit (c : Cache) (key : String)
    (f : Unit → Except ScrapErr Val) (now : Nat) (v : Val)
    (h : cacheLookup c key now = some v) :
    get_cached_or_fetch c key f now = ⟨.ok v, c, 0⟩ := by
  simp [get_cached_or_fetch, h]

theorem cached_or_fetch_miss (c : Cache) (key : String)
    (f : Unit → Except ScrapErr Val) (now : Nat) (v : Val)
    (h : cacheLookup c key now = none) (hv : f () = .ok v) :
    get_cached_or_fetch c key f now = ⟨.ok v, cacheInsert c key v now, 1⟩ := by
  simp [get_cached_or_fetch, h, hv]

theorem cacheLookup_insert (c : Cache) (key : String) (v : Val) (t1 t2 : Nat)
    (h : t2 < t1 + ttl) :
    cacheLookup (cacheInsert c key v t1) key t2 = some v := by
  unfold cacheLookup cacheInsert
  rw [List.find?_cons_of_pos]
  · rfl
  · simp [h]

theorem cached_or_fetch_isOk (c : Cache) (key : String)
    (f : Unit → Except ScrapErr Val) (now : Nat) (h : ∃ v, f () = .ok v) :
    (get_cached_or_fetch c key f now).result.isOk = true := by
  obtain ⟨v, hv⟩ := h
  cases hl : cacheLookup c key now with
  | some w => rw [cached_or_fetch_hit c key f now w hl]; rfl
  | none => rw [cached_or_fetch_miss c key f now v hl hv]; rfl

theorem miss_result (c : Cache) (key : String) (f : Unit → Except ScrapErr Val)
    (now : Nat) (v : Val) (h : cacheLookup c key now = none) (hv : f () = .ok v) :
    (get_cached_or_fetch c key f now).result = .ok v := by
  rw [cached_or_fetch_miss c key f now v h hv]

theorem fetchCount_le_one (c : Cache) (key : String)
    (f : Unit → Except ScrapErr Val) (now : Nat) :
    (get_cached_or_fetch c key f now).fetchCount ≤ 1 := by
  unfold get_cached_or_fetch
  cases cacheLookup c key now with
  | some v => simp
  | none =>
    cases f () with
    | ok v => simp
    | error e => cases defaultFor key <;> simp

theorem accessor_fail_generic (c : Cache) (key : String) (t1 t2 : Nat)
    (f : Unit → Except ScrapErr Val) (d : Val)
    (h : cacheLookup c key t1 = none) (hv : f () = .ok d) (h2 : t2 < t1 + ttl) :
    (get_cached_or_fetch c key f t1).result = .ok d ∧
    cacheLookup (get_cached_or_fetch c key f t1).cache key t2 = some d ∧
    (get_cached_or_fetch (get_cached_or_fetch c key f t1).cache key f t2).fetchCount = 0 := by
  rw [cached_or_fetch_miss c key f t1 d h hv]
  have hl : cacheLookup (cacheInsert c key d t1) key t2 = some d :=
    cacheLookup_insert c key d t1 t2 h2
  exact ⟨rfl, hl, by rw [cached_or_fetch_hit _ key f t2 d hl]⟩

theorem at_most_one_fetch (c : Cache) (key : String)
    (f : Unit → Except ScrapErr Val) (t1 t2 : Nat)
    (h2 : t2 < t1 + ttl) (hok : ∃ v, f () = .ok v) :
    (get_cached_or_fetch c key f t1).fetchCount +
      (get_cached_or_fetch (get_cached_or_fetch c key f t1).cache key f t2).fetchCount ≤ 1 := by
  obtain ⟨v, hv⟩ := hok
  cases hl : cacheLookup c key t1 with
  | some w =>
    rw [cached_or_fetch_hit c key f t1 w hl]
    simpa using fetchCount_le_one c key f t2
  | none =>
    rw [cached_or_fetch_miss c key f t1 v hl hv]
    rw [cached_or_fetch_hit _ key f t2 v (cacheLookup_insert c key v t1 t2 h2)]
    simp

theorem fresh_fetch_after_clear (c : Cache) (key : String)
    (f : Unit → Except ScrapErr Val) (t : Nat) :
    (get_cached_or_fetch (clear_cache c) key f t).fetchCount = 1 := by
  cases hf : f () with
  | ok v => simp [get_cached_or_fetch, cacheLookup, clear_cache, hf]
  | error e =>
    cases hd : defaultFor key <;>
      simp [get_cached_or_fetch, cacheLookup, clear_cache, hf, hd]

/-! ## C5 -/

/-- C5: with the upstream site unreachable (the page fetch raises) and
nothing cached, `get_fees` returns exactly the mapping
new_business ↦ 90, additional ↦ 19. -/
theorem claim5_fees_default_on_unreachable (now : Nat) (e : ScrapErr) :
    (get_fees [] (.error e) now).result =
      .ok (.fees [("new_business", 90), ("additional", 19)]) := rfl

/-! ## C1 -/

/-- C1 counterexample: at the concrete input "empty cache, fees page fetch
raising", the accessor returns the static default, but — against the
claim — an entry for the key IS stored in the cache, and the next call
performs no fresh fetch (its producer runs zero times). -/
theorem claim1_counterexample :
    (get_fees [] (.error .fetchError) 0).result = .ok (.fees default_fees) ∧
    cacheLookup (get_fees [] (.error .fetchError) 0).cache "fees" 0 ≠ none ∧
    (get_fees (get_fees [] (.error .fetchError) 0).cache (.error .fetchError) 0).fetchCount = 0 := by
  decide

/-- C1 (amended): for every fact-category accessor, when the underlying
fetch or extraction fails on a cache miss, the static default value is
returned and an entry holding that default IS stored in the cache for the
key, so the next call within the TTL window returns the cached default
without performing a fresh fetch. -/
theorem claim1_failure_caches_default (c : Cache) (t1 t2 : Nat) (e : ScrapErr)
    (h2 : t2 < t1 + ttl) :
    (cacheLookup c "minimum_wage" t1 = none →
      (get_minimum_wage c (.error e) (.error e) t1).result = .ok (.wages default_minimum_wage) ∧
      cacheLookup (get_minimum_wage c (.error e) (.error e) t1).cache "minimum_wage" t2 =
        some (.wages default_minimum_wage) ∧
      (get_minimum_wage (get_minimum_wage c (.error e) (.error e) t1).cache
        (.error e) (.error e) t2).fetchCount = 0) ∧
    (cacheLookup c "license_requirements" t1 = none →
      (get_license_requirements c (.error e) t1).result = .ok (.reqs default_license_requirements) ∧
      cacheLookup (get_license_requirements c (.error e) t1).cache "license_requirements" t2 =
        some (.reqs default_license_requirements) ∧
      (get_license_requirements (get_license_requirements c (.error e) t1).cache
        (.error e) t2).fetchCount = 0) ∧
    (cacheLookup c "fees" t1 = none →
      (get_fees c (.error e) t1).result = .ok (.fees default_fees) ∧
      cacheLookup (get_fees c (.error e) t1).cache "fees" t2 = some (.fees default_fees) ∧
      (get_fees (get_fees c (.error e) t1).cache (.error e) t2).fetchCount = 0) ∧
    (cacheLookup c "faqs" t1 = none →
      (get_faqs c (.error e) t1).result = .ok (.faqs default_faqs) ∧
      cacheLookup (get_faqs c (.error e) t1).cache "faqs" t2 = some (.faqs default_faqs) ∧
      (get_faqs (get_faqs c (.error e) t1).cache (.error e) t2).fetchCount = 0) ∧
    (cacheLookup c "resource_links" t1 = none →
      (get_resource_links c (.error e) t1).result = .ok (.links default_resource_links) ∧
      cacheLookup (get_resource_links c (.error e) t1).cache "resource_links" t2 =
        some (.links default_resource_links) ∧
      (get_resource_links (get_resource_links c (.error e) t1).cache
        (.error e) t2).fetchCount = 0) :=
  ⟨fun h => accessor_fail_generic c "minimum_wage" t1 t2 _ (.wages default_minimum_wage) h rfl h2,
   fun h => accessor_fail_generic c "license_requirements" t1 t2 _
     (.reqs default_license_requirements) h rfl h2,
   fun h => accessor_fail_generic c "fees" t1 t2 _ (.fees default_fees) h rfl h2,
   fun h => accessor_fail_generic c "faqs" t1 t2 _ (.faqs default_faqs) h rfl h2,
   fun h => accessor_fail_generic c "resource_links" t1 t2 _
     (.links default_resource_links) h rfl h2⟩

/-- Witness for the amended C1: the fees conjunct at the concrete input
"empty cache, fetch raising at time 0, second call at time 1". -/
theorem claim1_failure_caches_default_witness :
    (get_fees [] (.error .fetchError) 0).result = .ok (.fees default_fees) ∧
    cacheLookup (get_fees [] (.error .fetchError) 0).cache "fees" 1 = some (.fees default_fees) ∧
    (get_fees (get_fees [] (.error .fetchError) 0).cache (.error .fetchError) 1).fetchCount = 0 :=
  (claim1_failure_caches_default [] 0 1 .fetchError (by decide)).2.2.1 rfl

/-! ## C2 -/

/-- C2: none of the five public accessors ever raises (the result is
always `ok`, for every cache state and every page outcome), and when the
page fetch raises — or the extraction finds nothing — on a cache miss,
each returns its documented static default. -/
theorem claim2_accessors_never_raise (c : Cache) (now : Nat) (e : ScrapErr)
    (sp : Except ScrapErr (Option ℚ)) (lp : Except ScrapErr (String → Option ℚ))
    (pl : Except ScrapErr (Option (List String)))
    (pf : Except ScrapErr (Option (List Nat)))
    (pq : Except ScrapErr (List FaqEntry))
    (pr : Except ScrapErr (List RawResource)) :
    ((get_minimum_wage c sp lp now).result.isOk = true ∧
     (get_license_requirements c pl now).result.isOk = true ∧
     (get_fees c pf now).result.isOk = true ∧
     (get_faqs c pq now).result.isOk = true ∧
     (get_resource_links c pr now).result.isOk = true) ∧
    ((cacheLookup c "minimum_wage" now = none →
       (get_minimum_wage c (.error e) (.error e) now).result =
         .ok (.wages default_minimum_wage)) ∧
     (cacheLookup c "license_requirements" now = none →
       (get_license_requirements c (.error e) now).result =
         .ok (.reqs default_license_requirements)) ∧
     (cacheLookup c "fees" now = none →
       (get_fees c (.error e) now).result = .ok (.fees default_fees)) ∧
     (cacheLookup c "faqs" now = none →
       (get_faqs c (.error e) now).result = .ok (.faqs default_faqs)) ∧
     (cacheLookup c "resource_links" now = none →
       (get_resource_links c (.error e) now).result =
         .ok (.links default_resource_links))) ∧
    ((cacheLookup c "minimum_wage" now = none →
       (get_minimum_wage c (.ok none) (.ok (fun _ => none)) now).result =
         .ok (.wages default_minimum_wage)) ∧
     (cacheLookup c "license_requirements" now = none →
       (get_license_requirements c (.ok none) now).result =
         .ok (.reqs default_license_requirements)) ∧
     (cacheLookup c "fees" now = none →
       (get_fees c (.ok none) now).result = .ok (.fees default_fees)) ∧
     (cacheLookup c "faqs" now = none →
       (get_faqs c (.ok []) now).result = .ok (.faqs default_faqs)) ∧
     (cacheLookup c "resource_links" now = none →
       (get_resource_links c (.ok []) now).result =
         .ok (.links default_resource_links))) := by
  refine ⟨⟨?_, ?_, ?_, ?_, ?_⟩, ⟨?_, ?_, ?_, ?_, ?_⟩, ⟨?_, ?_, ?_, ?_, ?_⟩⟩
  · exact cached_or_fetch_isOk c "minimum_wage" _ now
      (by obtain ⟨w, hw⟩ := min_wage_fetch_isOk sp lp; exact ⟨.wages w, by rw [hw]; rfl⟩)
  · exact cached_or_fetch_isOk c "license_requirements" _ now
      (by obtain ⟨w, hw⟩ := license_fetch_isOk pl; exact ⟨.reqs w, by rw [hw]; rfl⟩)
  · exact cached_or_fetch_isOk c "fees" _ now
      (by obtain ⟨w, hw⟩ := fees_fetch_isOk pf; exact ⟨.fees w, by rw [hw]; rfl⟩)
  · exact cached_or_fetch_isOk c "faqs" _ now
      (by obtain ⟨w, hw⟩ := faqs_fetch_isOk pq; exact ⟨.faqs w, by rw [hw]; rfl⟩)
  · exact cached_or_fetch_isOk c "resource_links" _ now
      (by obtain ⟨w, hw⟩ := resources_fetch_isOk pr; exact ⟨.links w, by rw [hw]; rfl⟩)
  · exact fun h => miss_result c "minimum_wage" _ now (.wages default_minimum_wage) h rfl
  · exact fun h => miss_result c "license_requirements" _ now
      (.reqs default_license_requirements) h rfl
  · exact fun h => miss_result c "fees" _ now (.fees default_fees) h rfl
  · exact fun h => miss_result c "faqs" _ now (.faqs default_faqs) h rfl
  · exact fun h => miss_result c "resource_links" _ now (.links default_resource_links) h rfl
  · exact fun h => miss_result c "minimum_wage" _ now (.wages default_minimum_wage) h rfl
  · exact fun h => miss_result c "license_requirements" _ now
      (.reqs default_license_requirements) h rfl
  · exact fun h => miss_result c "fees" _ now (.fees default_fees) h rfl
  · exact fun h => miss_result c "faqs" _ now (.faqs default_faqs) h rfl
  · exact fun h => miss_result c "resource_links" _ now (.links default_resource_links) h rfl

/-! ## C6 -/

/-- C6: for each fact-category accessor, two consecutive calls within the
TTL window run the underlying fetch closure at most once in total, and
after `clear_cache` the next call runs the fetch closure again (exactly
once). -/
theorem claim6_cache_at_most_one_fetch (c : Cache) (t1 t2 t3 : Nat)
    (sp : Except ScrapErr (Option ℚ)) (lp : Except ScrapErr (String → Option ℚ))
    (pl : Except ScrapErr (Option (List String)))
    (pf : Except ScrapErr (Option (List Nat)))
    (pq : Except ScrapErr (List FaqEntry))
    (pr : Except ScrapErr (List RawResource))
    (h1 : t1 ≤ t2) (h2 : t2 < t1 + ttl) :
    ((get_minimum_wage c sp lp t1).fetchCount +
       (get_minimum_wage (get_minimum_wage c sp lp t1).cache sp lp t2).fetchCount ≤ 1 ∧
     (get_license_requirements c pl t1).fetchCount +
       (get_license_requirements (get_license_requirements c pl t1).cache pl t2).fetchCount ≤ 1 ∧
     (get_fees c pf t1).fetchCount +
       (get_fees (get_fees c pf t1).cache pf t2).fetchCount ≤ 1 ∧
     (get_faqs c pq t1).fetchCount +
       (get_faqs (get_faqs c pq t1).cache pq t2).fetchCount ≤ 1 ∧
     (get_resource_links c pr t1).fetchCount +
       (get_resource_links (get_resource_links c pr t1).cache pr t2).fetchCount ≤ 1) ∧
    ((get_minimum_wage (clear_cache c) sp lp t3).fetchCount = 1 ∧
     (get_license_requirements (clear_cache c) pl t3).fetchCount = 1 ∧
     (get_fees (clear_cache c) pf t3).fetchCount = 1 ∧
     (get_faqs (clear_cache c) pq t3).fetchCount = 1 ∧
     (get_resource_links (clear_cache c) pr t3).fetchCount = 1) := by
  refine ⟨⟨?_, ?_, ?_, ?_, ?_⟩, ⟨?_, ?_, ?_, ?_, ?_⟩⟩
  · exact at_most_one_fetch c "minimum_wage" _ t1 t2 h2
      (by obtain ⟨w, hw⟩ := min_wage_fetch_isOk sp lp; exact ⟨.wages w, by rw [hw]; rfl⟩)
  · exact at_most_one_fetch c "license_requirements" _ t1 t2 h2
      (by obtain ⟨w, hw⟩ := license_fetch_isOk pl; exact ⟨.reqs w, by rw [hw]; rfl⟩)
  · exact at_most_one_fetch c "fees" _ t1 t2 h2
      (by obtain ⟨w, hw⟩ := fees_fetch_isOk pf; exact ⟨.fees w, by rw [hw]; rfl⟩)
  · exact at_most_one_fetch c "faqs" _ t1 t2 h2
      (by obtain ⟨w, hw⟩ := faqs_fetch_isOk pq; exact ⟨.faqs w, by rw [hw]; rfl⟩)
  · exact at_most_one_fetch c "resource_links" _ t1 t2 h2
      (by obtain ⟨w, hw⟩ := resources_fetch_isOk pr; exact ⟨.links w, by rw [hw]; rfl⟩)
  · exact fresh_fetch_after_clear c "minimum_wage" _ t3
  · exact fresh_fetch_after_clear c "license_requirements" _ t3
  · exact fresh_fetch_after_clear c "fees" _ t3
  · exact fresh_fetch_after_clear c "faqs" _ t3
  · exact fresh_fetch_after_clear c "resource_links" _ t3

/-- Witness for C6: the fees two-call bound at the concrete input "empty
cache, fetch raising, calls at times 0 and 1". -/
theorem claim6_cache_at_most_one_fetch_witness :
    (get_fees [] (.error .fetchError) 0).fetchCount +
      (get_fees (get_fees [] (.error .fetchError) 0).cache
        (.error .fetchError) 1).fetchCount ≤ 1 :=
  (claim6_cache_at_most_one_fetch [] 0 1 0 (.error .fetchError) (.error .fetchError)
    (.error .fetchError) (.error .fetchError) (.error .fetchError) (.error .fetchError)
    (by decide) (by decide)).1.2.2.1

/-! ## C10 -/

theorem dictInsert_forall (P : String × ℚ → Prop) (d : List (String × ℚ))
    (k : String) (v : ℚ) (hd : ∀ kv ∈ d, P kv) (hkv : P (k, v)) :
    ∀ kv ∈ dictInsert d k v, P kv := by
  intro kv hmem
  unfold dictInsert at hmem
  by_cases hc : d.any (fun kv => kv.1 == k)
  · rw [if_pos hc] at hmem
    obtain ⟨x, hx, hxe⟩ := List.mem_map.mp hmem
    by_cases hxk : x.1 == k
    · rw [if_pos hxk] at hxe
      cases hxe
      exact hkv
    · rw [if_neg hxk] at hxe
      cases hxe
      exact hd _ hx
  · rw [if_neg hc] at hmem
    rcases List.mem_append.mp hmem with h | h
    · exact hd kv h
    · cases List.mem_singleton.mp h
      exact hkv

theorem build_fees_forall (P : String × ℚ → Prop)
    (hnb : ∀ q : ℚ, q = 90 → P ("new_business", q))
    (had : ∀ q : ℚ, q = 19 → P ("additional", q)) :
    ∀ (amounts : List Nat) (acc : List (String × ℚ)),
      (∀ kv ∈ acc, P kv) → ∀ kv ∈ build_fees amounts acc, P kv := by
  intro amounts
  induction amounts with
  | nil => intro acc hacc kv hkv; exact hacc kv hkv
  | cons a rest ih =>
    intro acc hacc
    simp only [build_fees]
    by_cases h90 : (a == 90) = true
    · rw [if_pos h90]
      refine ih _ (dictInsert_forall P acc "new_business" (a : ℚ) hacc ?_)
      refine hnb _ ?_
      have ha : a = 90 := by simpa using h90
      subst ha; norm_num
    · rw [if_neg h90]
      by_cases h19 : (a == 19) = true
      · rw [if_pos h19]
        refine ih _ (dictInsert_forall P acc "additional" (a : ℚ) hacc ?_)
        refine had _ ?_
        have ha : a = 19 := by simpa using h19
        subst ha; norm_num
      · rw [if_neg h19]
        exact ih acc hacc

theorem fees_fetch_ok_values (page : Except ScrapErr (Option (List Nat)))
    (l : List (String × ℚ)) (h : fees_fetch page = .ok l) :
    ∀ kv ∈ l, (kv.1 = "new_business" ∧ kv.2 = 90) ∨ (kv.1 = "additional" ∧ kv.2 = 19) := by
  cases page with
  | error e =>
    have hl : default_fees = l := Except.ok.inj h
    rw [← hl]; decide
  | ok sec =>
    cases sec with
    | none =>
      have hl : default_fees = l := Except.ok.inj h
      rw [← hl]; decide
    | some amounts =>
      by_cases hemp : (build_fees amounts []).isEmpty = true
      · have hb : fees_fetch (.ok (some amounts)) = .ok default_fees := by
          simp only [fees_fetch, fees_fetch_body]
          rw [if_pos hemp]
        rw [hb] at h
        have hl : default_fees = l := Except.ok.inj h
        rw [← hl]; decide
      · have hb : fees_fetch (.ok (some amounts)) = .ok (build_fees amounts []) := by
          simp only [fees_fetch, fees_fetch_body]
          rw [if_neg hemp]
        rw [hb] at h
        have hl : build_fees amounts [] = l := Except.ok.inj h
        rw [← hl]
        exact build_fees_forall _ (fun q hq => Or.inl ⟨rfl, hq⟩)
          (fun q hq => Or.inr ⟨rfl, hq⟩) amounts [] (by simp)

/-- C10: whenever `get_fees` performs a fetch (cache miss), every entry of
the returned fee mapping is `new_business ↦ 90` or `additional ↦ 19` —
regardless of which dollar amounts the page actually contains. -/
theorem claim10_fees_values_subset (c : Cache) (now : Nat)
    (page : Except ScrapErr (Option (List Nat))) (l : List (String × ℚ))
    (hmiss : cacheLookup c "fees" now = none)
    (hres : (get_fees c page now).result = .ok (.fees l)) :
    ∀ kv ∈ l, (kv.1 = "new_business" ∧ kv.2 = 90) ∨ (kv.1 = "additional" ∧ kv.2 = 19) := by
  obtain ⟨w, hw⟩ := fees_fetch_isOk page
  have hres' : (get_fees c page now).result = .ok (.fees w) :=
    miss_result c "fees" _ now (.fees w) hmiss (by rw [hw]; rfl)
  rw [hres'] at hres
  have hwl : w = l := by simpa using hres
  subst hwl
  exact fees_fetch_ok_values page w hw

/-- Witness for C10: the theorem applied at the concrete page containing
the amounts 100, 90, 19 and 5, then at the first returned entry. -/
theorem claim10_fees_values_subset_witness :
    (("new_business", (90 : ℚ)).1 = "new_business" ∧ ("new_business", (90 : ℚ)).2 = 90) ∨
      (("new_business", (90 : ℚ)).1 = "additional" ∧ ("new_business", (90 : ℚ)).2 = 19) :=
  claim10_fees_values_subset [] 0 (.ok (some [100, 90, 19, 5]))
    [("new_business", 90), ("additional", 19)] rfl (by decide)
    ("new_business", 90) (by decide)

/-! ## C9 -/

theorem min_wage_fetch_ok_washington (sp : Except ScrapErr (Option ℚ))
    (lp : Except ScrapErr (String → Option ℚ)) (l : List (String × ℚ))
    (h : min_wage_fetch sp lp = .ok l) :
    "washington" ∈ l.map Prod.fst ∨
      (sp = .ok none ∧ l ≠ [] ∧ ∀ kv ∈ l, kv.1 ∈ city_names) := by
  cases sp with
  | error e =>
    have hl : default_minimum_wage = l := Except.ok.inj h
    left; rw [← hl]; decide
  | ok sw =>
    cases lp with
    | error e =>
      have hl : default_minimum_wage = l := Except.ok.inj h
      left; rw [← hl]; decide
    | ok cm =>
      cases sw with
      | some w =>
        have hb : min_wage_fetch (.ok (some w)) (.ok cm) =
            .ok (("washington", w) ::
              city_names.filterMap (fun city => (cm city).map (fun x => (city, x)))) := by
          simp only [min_wage_fetch, min_wage_fetch_body, List.singleton_append]
          rw [if_neg (by simp)]
        rw [hb] at h
        have hl := Except.ok.inj h
        left; rw [← hl]; simp
      | none =>
        by_cases hemp :
            (city_names.filterMap (fun city => (cm city).map (fun x => (city, x)))).isEmpty = true
        · have hb : min_wage_fetch (.ok none) (.ok cm) = .ok default_minimum_wage := by
            simp only [min_wage_fetch, min_wage_fetch_body, List.nil_append]
            rw [if_pos hemp]
          rw [hb] at h
          have hl : default_minimum_wage = l := Except.ok.inj h
          left; rw [← hl]; decide
        · have hb : min_wage_fetch (.ok none) (.ok cm) =
              .ok (city_names.filterMap (fun city => (cm city).map (fun x => (city, x)))) := by
            simp only [min_wage_fetch, min_wage_fetch_body, List.nil_append]
            rw [if_neg hemp]
          rw [hb] at h
          have hl := Except.ok.inj h
          right
          refine ⟨rfl, ?_, ?_⟩
          · rw [← hl]
            intro hnil
            rw [hnil] at hemp
            exact hemp rfl
          · intro kv hkv
            rw [← hl] at hkv
            obtain ⟨city, hcity, hmap⟩ := List.mem_filterMap.mp hkv
            obtain ⟨x, _, hx⟩ := Option.map_eq_some'.mp hmap
            rw [← hx]
            exact hcity

/-- C9 counterexample: a partial scrape in which the state-wage pattern
fails but the Seattle pattern matches yields a wage table without the
"washington" key. -/
theorem claim9_counterexample :
    (get_minimum_wage [] (.ok none)
        (.ok (fun city => if city == "seattle" then some 20 else none)) 0).result =
      .ok (.wages [("seattle", 20)]) ∧
    "washington" ∉ ([("seattle", (20 : ℚ))].map Prod.fst) := by
  constructor
  · decide
  · decide

/-- C9 (amended): whenever `get_minimum_wage` performs a fetch (cache
miss), the returned wage table contains the "washington" entry — except in
the partial-scrape outcome where the state-page extraction found nothing
while at least one regional pattern matched; in that case the table is
nonempty and consists solely of regional city entries. -/
theorem claim9_wage_table_washington (c : Cache) (now : Nat)
    (sp : Except ScrapErr (Option ℚ)) (lp : Except ScrapErr (String → Option ℚ))
    (l : List (String × ℚ)) (hmiss : cacheLookup c "minimum_wage" now = none)
    (hres : (get_minimum_wage c sp lp now).result = .ok (.wages l)) :
    "washington" ∈ l.map Prod.fst ∨
      (sp = .ok none ∧ l ≠ [] ∧ ∀ kv ∈ l, kv.1 ∈ city_names) := by
  obtain ⟨w, hw⟩ := min_wage_fetch_isOk sp lp
  have hres' : (get_minimum_wage c sp lp now).result = .ok (.wages w) :=
    miss_result c "minimum_wage" _ now (.wages w) hmiss (by rw [hw]; rfl)
  rw [hres'] at hres
  have hwl : w = l := by simpa using hres
  subst hwl
  exact min_wage_fetch_ok_washington sp lp w hw

/-- Witness for the amended C9: the theorem applied at a concrete
successful state-page extraction. -/
theorem claim9_wage_table_washington_witness :
    "washington" ∈ ([("washington", (16 : ℚ))].map Prod.fst) ∨
      ((Except.ok (some (16 : ℚ)) : Except ScrapErr (Option ℚ)) = .ok none ∧
        [("washington", (16 : ℚ))] ≠ [] ∧
        ∀ kv ∈ [("washington", (16 : ℚ))], kv.1 ∈ city_names) :=
  claim9_wage_table_washington [] 0 (.ok (some 16)) (.ok (fun _ => none))
    [("washington", 16)] rfl (by decide)

/-! ## C8 -/

theorem pyContains_append_left (l r : List Char) (w : String)
    (h : w.toList <:+: l) : pyContains (l ++ r) w = true := by
  unfold pyContains
  exact decide_eq_true (h.trans ⟨[], r, rfl⟩)

/-- C8: `_categorize_resource` always returns one of the five categories,
testing them first-match-wins in the fixed order licensing, planning,
tools, guidance, with `other` as the default; and a link titled "Business
License Wizard" whose lowercased URL contains `dor.wa.gov` is categorized
as licensing. -/
theorem claim8_categorize_resource (title url : String) :
    (categorize_resource title url ∈ ["licensing", "planning", "tools", "guidance", "other"]) ∧
    (licensingWords.any (fun w => pyContains (searchTextOf title url) w) = true →
      categorize_resource title url = "licensing") ∧
    (licensingWords.any (fun w => pyContains (searchTextOf title url) w) = false →
      planningWords.any (fun w => pyContains (searchTextOf title url) w) = true →
      categorize_resource title url = "planning") ∧
    (licensingWords.any (fun w => pyContains (searchTextOf title url) w) = false →
      planningWords.any (fun w => pyContains (searchTextOf title url) w) = false →
      toolsWords.any (fun w => pyContains (searchTextOf title url) w) = true →
      categorize_resource title url = "tools") ∧
    (licensingWords.any (fun w => pyContains (searchTextOf title url) w) = false →
      planningWords.any (fun w => pyContains (searchTextOf title url) w) = false →
      toolsWords.any (fun w => pyContains (searchTextOf title url) w) = false →
      guidanceWords.any (fun w => pyContains (searchTextOf title url) w) = true →
      categorize_resource title url = "guidance") ∧
    (licensingWords.any (fun w => pyContains (searchTextOf title url) w) = false →
      planningWords.any (fun w => pyContains (searchTextOf title url) w) = false →
      toolsWords.any (fun w => pyContains (searchTextOf title url) w) = false →
      guidanceWords.any (fun w => pyContains (searchTextOf title url) w) = false →
      categorize_resource title url = "other") ∧
    (∀ u : String, pyContains (u.toList.map Char.toLower) "dor.wa.gov" = true →
      categorize_resource "Business License Wizard" u = "licensing") := by
  refine ⟨?_, ?_, ?_, ?_, ?_, ?_, ?_⟩
  · simp only [categorize_resource]
    split_ifs <;> simp
  · intro hL
    simp only [categorize_resource]
    rw [if_pos hL]
  · intro hL hP
    simp only [categorize_resource]
    rw [if_neg (by simp [hL]), if_pos hP]
  · intro hL hP hT
    simp only [categorize_resource]
    rw [if_neg (by simp [hL]), if_neg (by simp [hP]), if_pos hT]
  · intro hL hP hT hG
    simp only [categorize_resource]
    rw [if_neg (by simp [hL]), if_neg (by simp [hP]), if_neg (by simp [hT]), if_pos hG]
  · intro hL hP hT hG
    simp only [categorize_resource]
    rw [if_neg (by simp [hL]), if_neg (by simp [hP]), if_neg (by simp [hT]),
      if_neg (by simp [hG])]
  · intro u _
    have hlic : "license".toList <:+:
        ("Business License Wizard".toList.map Char.toLower) := by decide
    have hany : licensingWords.any
        (fun w => pyContains (searchTextOf "Business License Wizard" u) w) = true := by
      refine List.any_eq_true.mpr ⟨"license", by decide, ?_⟩
      exact pyContains_append_left _ _ _ hlic
    simp only [categorize_resource]
    rw [if_pos hany]

/-! ## C4 -/

theorem pyContains_map_toLower (l : List Char) (w : String)
    (hw : w.toList.map Char.toLower = w.toList) (h : pyContains l w = true) :
    pyContains (l.map Char.toLower) w = true := by
  simp only [pyContains, decide_eq_true_eq] at h ⊢
  have hm := h.map Char.toLower
  rwa [hw] at hm

/-- C4: a business type whose normalized form contains "uber", "lyft" or
"taxi" resolves to the rideshare catalog; a business type in whose
(lowercased) normalized form the keyword matching finds none of the
recognized keywords resolves to the generic catalog; and "hair salon"
resolves to the specialized personal-services catalog — whose synthesized
flow contains a "Cosmetology License" node, a step title the generic
catalog nowhere contains. -/
theorem claim4_catalog_resolution (bt : String) :
    ((pyContains (normalizeBT bt) "uber" = true ∨
        pyContains (normalizeBT bt) "lyft" = true ∨
        pyContains (normalizeBT bt) "taxi" = true) →
      get_formation_steps (normalizeBT bt) = rideshareCatalog) ∧
    ((∀ w ∈ recognizedKeywords,
        pyContains ((normalizeBT bt).map Char.toLower) w = false) →
      get_formation_steps (normalizeBT bt) = genericCatalog) ∧
    get_formation_steps (normalizeBT "hair salon") = hairSalonCatalog ∧
    "Cosmetology License" ∈
      (generate_formation_flow "hair salon").nodes.map (fun n => n.text) ∧
    hairSalonCatalog ≠ genericCatalog ∧
    (∀ s ∈ genericCatalog, s.title ≠ "Cosmetology License" ∧ s.parallel_steps = none) := by
  refine ⟨?_, ?_, by decide, by decide, by decide, by decide⟩
  · intro h
    simp only [get_formation_steps]
    rcases h with h | h | h <;>
      rw [if_pos (by simp [pyContains_map_toLower _ _ (by decide) h])]
  · intro h
    have h1 := h "rideshare" (by decide)
    have h2 := h "uber" (by decide)
    have h3 := h "lyft" (by decide)
    have h4 := h "taxi" (by decide)
    have h5 := h "food" (by decide)
    have h6 := h "hair" (by decide)
    have h7 := h "salon" (by decide)
    have h8 := h "barber" (by decide)
    have h9 := h "beauty" (by decide)
    simp only [get_formation_steps]
    rw [if_neg (by simp [h1, h2, h3, h4]), if_neg (by simp [h5]),
      if_neg (by simp [h6, h7, h8, h9])]

/-! ## C7 -/

theorem filter_filter_not {α : Type} (p : α → Bool) (l : List α) :
    (l.filter (fun a => !(p a))).filter p = [] := by
  induction l with
  | nil => rfl
  | cons a l ih =>
    by_cases h : p a = true
    · simp [List.filter_cons, h, ih]
    · simp [List.filter_cons, h, ih]

theorem find?_filter_not_append {α : Type} (l : List α) (p : α → Bool) (x : α)
    (hx : p x = true) :
    ((l.filter (fun a => !(p a))) ++ [x]).find? p = some x := by
  induction l with
  | nil => simp [List.find?, hx]
  | cons a l ih =>
    by_cases h : p a = true
    · simp only [List.filter_cons, h]
      simpa using ih
    · simp only [List.filter_cons, h]
      simp only [Bool.not_false, if_pos]
      rw [List.cons_append, List.find?_cons_of_neg _ (by simp [h])]
      exact ih

/-- C7: saving a FAQ under an id with links L1 and then saving the same id
with links L2 leaves exactly the rows of L2 associated with the id —
no row of L1 survives and nothing accumulates — and `get_faq` then
returns exactly those links. -/
theorem claim7_save_faq_link_replacement (st : DBState) (f1 f2 : FaqInput)
    (h : f1.id = f2.id) :
    links_of (save_faq (save_faq st f1) f2) f2.id =
      f2.links.map (fun l => (⟨f2.id, l.text, l.value, l.type⟩ : LinkRow)) ∧
    (get_faq (save_faq (save_faq st f1) f2) f2.id).map (fun o => o.links) =
      some (f2.links.map (fun l => (⟨f2.id, l.text, l.value, l.type⟩ : LinkRow))) := by
  have hfilter : ((save_faq (save_faq st f1) f2).links).filter
      (fun l => l.faq_id == f2.id) =
      f2.links.map (fun l => (⟨f2.id, l.text, l.value, l.type⟩ : LinkRow)) := by
    show (((save_faq st f1).links.filter (fun l => !(l.faq_id == f2.id))) ++
        f2.links.map (fun l => (⟨f2.id, l.text, l.value, l.type⟩ : LinkRow))).filter
        (fun l => l.faq_id == f2.id) = _
    rw [List.filter_append, filter_filter_not, List.nil_append]
    apply List.filter_eq_self.mpr
    intro a ha
    obtain ⟨x, _, hx⟩ := List.mem_map.mp ha
    rw [← hx]
    simp
  refine ⟨hfilter, ?_⟩
  have hrow : ((save_faq (save_faq st f1) f2).faqs).find? (fun r => r.id == f2.id) =
      some ⟨f2.id, f2.question, f2.category, "faq_" ++ f2.id ++ ".json"⟩ :=
    find?_filter_not_append _ _ _ (by simp)
  have hfile : ((save_faq (save_faq st f1) f2).files).find?
      (fun f => f.1 == "faq_" ++ f2.id ++ ".json") =
      some ("faq_" ++ f2.id ++ ".json", ⟨f2.answer, f2.html_answer⟩) :=
    List.find?_cons_of_pos _ (by simp)
  unfold get_faq
  rw [hrow]
  simp [hfile, hfilter]

/-- Witness for C7: two saves under the id "a" with different link sets,
applied to the empty store. -/
theorem claim7_save_faq_link_replacement_witness :
    links_of (save_faq (save_faq ⟨[], [], []⟩
        ⟨"a", "q1", "ans1", "h1", "cat", [⟨"t1", "v1", "url"⟩, ⟨"t2", "v2", "url"⟩]⟩)
        ⟨"a", "q2", "ans2", "h2", "cat2", [⟨"t3", "v3", "email"⟩]⟩) "a" =
      [⟨"a", "t3", "v3", "email"⟩] :=
  (claim7_save_faq_link_replacement ⟨[], [], []⟩
    ⟨"a", "q1", "ans1", "h1", "cat", [⟨"t1", "v1", "url"⟩, ⟨"t2", "v2", "url"⟩]⟩
    ⟨"a", "q2", "ans2", "h2", "cat2", [⟨"t3", "v3", "email"⟩]⟩ rfl).1

/-! ## C3: the parallel-loop lemmas -/

theorem parallelNodes_ids_eq_edge_targets (i : Nat) (ps : List SubStep) : ∀ j : Nat,
    (parallelEdges i j ps).map Prod.snd = (parallelNodes i j ps).map (fun n => n.id) := by
  induction ps with
  | nil => intro j; rfl
  | cons p ps ih =>
    intro j
    simp only [parallelNodes, parallelEdges, List.map_cons]
    rw [ih (j + 1)]

theorem parallelEdges_mem (i : Nat) (ps : List SubStep) : ∀ (j : Nat)
    (e : NodeId × NodeId), e ∈ parallelEdges i j ps →
    ∃ k, j ≤ k ∧ e = (NodeId.step i, NodeId.parallel i k) := by
  induction ps with
  | nil => intro j e he; cases he
  | cons p ps ih =>
    intro j e he
    rcases List.mem_cons.mp he with he | he
    · exact ⟨j, Nat.le_refl j, he⟩
    · obtain ⟨k, hk, he⟩ := ih (j + 1) e he
      exact ⟨k, by omega, he⟩

theorem parallelNodes_mem_id (i : Nat) (ps : List SubStep) : ∀ (j : Nat) (v : NodeId),
    v ∈ (parallelNodes i j ps).map (fun n => n.id) →
    ∃ k, j ≤ k ∧ v = NodeId.parallel i k := by
  induction ps with
  | nil => intro j v hv; cases hv
  | cons p ps ih =>
    intro j v hv
    simp only [parallelNodes, List.map_cons] at hv
    rcases List.mem_cons.mp hv with hv | hv
    · exact ⟨j, Nat.le_refl j, hv⟩
    · obtain ⟨k, hk, hv⟩ := ih (j + 1) v hv
      exact ⟨k, by omega, hv⟩

theorem parallelNodes_ids_nodup (i : Nat) (ps : List SubStep) : ∀ j : Nat,
    ((parallelNodes i j ps).map (fun n => n.id)).Nodup := by
  induction ps with
  | nil => intro j; simp [parallelNodes]
  | cons p ps ih =>
    intro j
    simp only [parallelNodes, List.map_cons]
    refine List.nodup_cons.mpr ⟨?_, ih (j + 1)⟩
    intro hmem
    obtain ⟨k, hk, hv⟩ := parallelNodes_mem_id i ps (j + 1) _ hmem
    injection hv with h1 h2
    omega

/-! ## C3: the main-loop lemmas -/

theorem processSteps_targets_eq_ids (l : List Step) : ∀ (last : NodeId) (idx : Nat),
    (processSteps last idx l).2.map Prod.snd =
      (processSteps last idx l).1.map (fun n => n.id) := by
  induction l with
  | nil => intro last idx; rfl
  | cons s rest ih =>
    intro last idx
    cases hps : s.parallel_steps with
    | none =>
      simp only [processSteps, hps, List.map_cons, List.map_append, List.map_nil,
        List.nil_append]
      rw [ih (NodeId.step idx) (idx + 1)]
    | some ps =>
      simp only [processSteps, hps, List.map_cons, List.map_append]
      rw [ih (NodeId.step idx) (idx + 1), parallelNodes_ids_eq_edge_targets idx ps 0]

theorem processSteps_mem_id (l : List Step) : ∀ (last : NodeId) (idx : Nat) (v : NodeId),
    v ∈ (processSteps last idx l).1.map (fun n => n.id) →
    ∃ i, idx ≤ i ∧ (v = NodeId.step i ∨ ∃ j, v = NodeId.parallel i j) := by
  induction l with
  | nil => intro last idx v hv; cases hv
  | cons s rest ih =>
    intro last idx v hv
    cases hps : s.parallel_steps with
    | none =>
      simp only [processSteps, hps, List.map_cons, List.map_append, List.nil_append] at hv
      rcases List.mem_cons.mp hv with hv | hv
      · exact ⟨idx, Nat.le_refl idx, Or.inl hv⟩
      · obtain ⟨i, hi, hv⟩ := ih (NodeId.step idx) (idx + 1) v hv
        exact ⟨i, by omega, hv⟩
    | some ps =>
      simp only [processSteps, hps, List.map_cons, List.map_append] at hv
      rcases List.mem_cons.mp hv with hv | hv
      · exact ⟨idx, Nat.le_refl idx, Or.inl hv⟩
      · rcases List.mem_append.mp hv with hv | hv
        · obtain ⟨k, _, hv⟩ := parallelNodes_mem_id idx ps 0 v hv
          exact ⟨idx, Nat.le_refl idx, Or.inr ⟨k, hv⟩⟩
        · obtain ⟨i, hi, hv⟩ := ih (NodeId.step idx) (idx + 1) v hv
          exact ⟨i, by omega, hv⟩

theorem processSteps_ids_nodup (l : List Step) : ∀ (last : NodeId) (idx : Nat),
    ((processSteps last idx l).1.map (fun n => n.id)).Nodup := by
  induction l with
  | nil => intro last idx; simp [processSteps]
  | cons s rest ih =>
    intro last idx
    cases hps : s.parallel_steps with
    | none =>
      simp only [processSteps, hps, List.map_cons, List.map_append, List.nil_append]
      refine List.nodup_cons.mpr ⟨?_, ih (NodeId.step idx) (idx + 1)⟩
      intro hmem
      obtain ⟨i, hi, hv⟩ := processSteps_mem_id rest (NodeId.step idx) (idx + 1) _ hmem
      rcases hv with hv | ⟨j, hv⟩
      · injection hv with h1; omega
      · cases hv
    | some ps =>
      simp only [processSteps, hps, List.map_cons, List.map_append]
      refine List.nodup_cons.mpr ⟨?_, ?_⟩
      · intro hmem
        rcases List.mem_append.mp hmem with hv | hv
        · obtain ⟨k, _, hv⟩ := parallelNodes_mem_id idx ps 0 _ hv
          cases hv
        · obtain ⟨i, hi, hv⟩ := processSteps_mem_id rest (NodeId.step idx) (idx + 1) _ hv
          rcases hv with hv | ⟨j, hv⟩
          · injection hv with h1; omega
          · cases hv
      · refine List.Nodup.append (parallelNodes_ids_nodup idx ps 0)
          (ih (NodeId.step idx) (idx + 1)) ?_
        intro v hv1 hv2
        obtain ⟨k, _, hvk⟩ := parallelNodes_mem_id idx ps 0 v hv1
        obtain ⟨i, hi, hvi⟩ := processSteps_mem_id rest (NodeId.step idx) (idx + 1) v hv2
        subst hvk
        rcases hvi with hvi | ⟨j, hvi⟩
        · cases hvi
        · injection hvi with h1 h2; omega

theorem processSteps_edge_parent (l : List Step) : ∀ (last : NodeId) (idx : Nat),
    last = parentOf (NodeId.step idx) →
    ∀ e ∈ (processSteps last idx l).2, e.1 = parentOf e.2 := by
  induction l with
  | nil => intro last idx _ e he; cases he
  | cons s rest ih =>
    intro last idx hlast e he
    cases hps : s.parallel_steps with
    | none =>
      simp only [processSteps, hps, List.nil_append] at he
      rcases List.mem_cons.mp he with he | he
      · subst he; exact hlast
      · exact ih (NodeId.step idx) (idx + 1) rfl e he
    | some ps =>
      simp only [processSteps, hps] at he
      rcases List.mem_cons.mp he with he | he
      · subst he; exact hlast
      · rcases List.mem_append.mp he with he | he
        · obtain ⟨k, _, hek⟩ := parallelEdges_mem idx ps 0 e he
          subst hek; rfl
        · exact ih (NodeId.step idx) (idx + 1) rfl e he

theorem processSteps_edge_src (l : List Step) : ∀ (last : NodeId) (idx : Nat),
    ∀ e ∈ (processSteps last idx l).2,
      e.1 = last ∨ e.1 ∈ (processSteps last idx l).1.map (fun n => n.id) := by
  induction l with
  | nil => intro last idx e he; cases he
  | cons s rest ih =>
    intro last idx e he
    cases hps : s.parallel_steps with
    | none =>
      simp only [processSteps, hps, List.nil_append, List.map_cons] at he ⊢
      rcases List.mem_cons.mp he with he | he
      · subst he; exact Or.inl rfl
      · rcases ih (NodeId.step idx) (idx + 1) e he with h | h
        · exact Or.inr (h ▸ List.mem_cons_self _ _)
        · exact Or.inr (List.mem_cons_of_mem _ h)
    | some ps =>
      simp only [processSteps, hps, List.map_cons, List.map_append] at he ⊢
      rcases List.mem_cons.mp he with he | he
      · subst he; exact Or.inl rfl
      · rcases List.mem_append.mp he with he | he
        · obtain ⟨k, _, hek⟩ := parallelEdges_mem idx ps 0 e he
          subst hek
          exact Or.inr (List.mem_cons_self _ _)
        · rcases ih (NodeId.step idx) (idx + 1) e he with h | h
          · exact Or.inr (h ▸ List.mem_cons_self _ _)
          · exact Or.inr (List.mem_cons_of_mem _ (List.mem_append_right _ h))

/-! ## C3: the full-graph lemmas -/

theorem flow_ids (btNorm : List Char) (steps : List Step) :
    idsOf (generate_flow_from_steps btNorm steps) =
      NodeId.start :: NodeId.struct ::
        (processSteps NodeId.struct 0 steps).1.map (fun n => n.id) := rfl

theorem flow_edges (btNorm : List Char) (steps : List Step) :
    (generate_flow_from_steps btNorm steps).edges =
      (NodeId.start, NodeId.struct) :: (processSteps NodeId.struct 0 steps).2 := rfl

theorem flow_targets (btNorm : List Char) (steps : List Step) :
    (generate_flow_from_steps btNorm steps).edges.map Prod.snd =
      NodeId.struct :: (processSteps NodeId.struct 0 steps).1.map (fun n => n.id) := by
  show NodeId.struct :: (processSteps NodeId.struct 0 steps).2.map Prod.snd = _
  rw [processSteps_targets_eq_ids]

theorem flow_ids_nodup (btNorm : List Char) (steps : List Step) :
    (idsOf (generate_flow_from_steps btNorm steps)).Nodup := by
  rw [flow_ids]
  refine List.nodup_cons.mpr ⟨?_, List.nodup_cons.mpr
    ⟨?_, processSteps_ids_nodup steps NodeId.struct 0⟩⟩
  · intro hmem
    rcases List.mem_cons.mp hmem with h | h
    · cases h
    · obtain ⟨i, _, hv⟩ := processSteps_mem_id steps NodeId.struct 0 _ h
      rcases hv with hv | ⟨j, hv⟩ <;> cases hv
  · intro hmem
    obtain ⟨i, _, hv⟩ := processSteps_mem_id steps NodeId.struct 0 _ hmem
    rcases hv with hv | ⟨j, hv⟩ <;> cases hv

theorem flow_edge_parent (btNorm : List Char) (steps : List Step) :
    ∀ e ∈ (generate_flow_from_steps btNorm steps).edges, e.1 = parentOf e.2 := by
  intro e he
  rw [flow_edges] at he
  rcases List.mem_cons.mp he with he | he
  · subst he; rfl
  · exact processSteps_edge_parent steps NodeId.struct 0 rfl e he

theorem flow_target_ne_start (btNorm : List Char) (steps : List Step) :
    ∀ e ∈ (generate_flow_from_steps btNorm steps).edges, e.2 ≠ NodeId.start := by
  intro e he hstart
  have hmem : e.2 ∈ (generate_flow_from_steps btNorm steps).edges.map Prod.snd :=
    List.mem_map_of_mem _ he
  rw [flow_targets] at hmem
  rcases List.mem_cons.mp hmem with h | h
  · rw [hstart] at h; cases h
  · obtain ⟨i, _, hv⟩ := processSteps_mem_id steps NodeId.struct 0 _ h
    rw [hstart] at hv
    rcases hv with hv | ⟨j, hv⟩ <;> cases hv

theorem rank_parentOf_lt (v : NodeId) (hv : v ≠ NodeId.start) :
    rank (parentOf v) < rank v := by
  cases v with
  | start => exact absurd rfl hv
  | struct => decide
  | step i =>
    cases i with
    | zero => decide
    | succ n => simp [parentOf, rank]
  | parallel i j => simp [parentOf, rank]

theorem flow_edge_rank_lt (btNorm : List Char) (steps : List Step) :
    ∀ e ∈ (generate_flow_from_steps btNorm steps).edges, rank e.1 < rank e.2 := by
  intro e he
  rw [flow_edge_parent btNorm steps e he]
  exact rank_parentOf_lt e.2 (flow_target_ne_start btNorm steps e he)

theorem reach_rank_lt (es : List (NodeId × NodeId))
    (hes : ∀ e ∈ es, rank e.1 < rank e.2) {a b : NodeId} (h : Reach es a b) :
    rank a < rank b := by
  induction h with
  | edge hab => exact hes _ hab
  | tail hab hbc ih => exact Nat.lt_trans ih (hes _ hbc)

theorem flow_acyclic (btNorm : List Char) (steps : List Step) :
    ∀ v, ¬ Reach (generate_flow_from_steps btNorm steps).edges v v := by
  intro v h
  exact Nat.lt_irrefl _ (reach_rank_lt _ (flow_edge_rank_lt btNorm steps) h)

theorem flow_indeg_start (btNorm : List Char) (steps : List Step) :
    indeg (generate_flow_from_steps btNorm steps) NodeId.start = 0 := by
  unfold indeg
  rw [flow_targets]
  apply List.count_eq_zero.mpr
  intro hmem
  rcases List.mem_cons.mp hmem with h | h
  · cases h
  · obtain ⟨i, _, hv⟩ := processSteps_mem_id steps NodeId.struct 0 _ h
    rcases hv with hv | ⟨j, hv⟩ <;> cases hv

theorem flow_indeg_nonstart (btNorm : List Char) (steps : List Step) (v : NodeId)
    (hv : v ∈ idsOf (generate_flow_from_steps btNorm steps)) (hne : v ≠ NodeId.start) :
    indeg (generate_flow_from_steps btNorm steps) v = 1 := by
  unfold indeg
  rw [flow_targets]
  have hnodup := flow_ids_nodup btNorm steps
  rw [flow_ids] at hnodup hv
  rcases List.mem_cons.mp hv with h | h
  · exact absurd h hne
  · exact List.count_eq_one_of_mem (List.nodup_cons.mp hnodup).2 h

theorem flow_edge_mem (btNorm : List Char) (steps : List Step) :
    ∀ e ∈ (generate_flow_from_steps btNorm steps).edges,
      e.1 ∈ idsOf (generate_flow_from_steps btNorm steps) ∧
      e.2 ∈ idsOf (generate_flow_from_steps btNorm steps) := by
  intro e he
  constructor
  · rw [flow_edges] at he
    rcases List.mem_cons.mp he with h | h
    · subst h; rw [flow_ids]; exact List.mem_cons_self _ _
    · rcases processSteps_edge_src steps NodeId.struct 0 e h with h1 | h1
      · rw [flow_ids, h1]
        exact List.mem_cons_of_mem _ (List.mem_cons_self _ _)
      · rw [flow_ids]
        exact List.mem_cons_of_mem _ (List.mem_cons_of_mem _ h1)
  · have hmem : e.2 ∈ (generate_flow_from_steps btNorm steps).edges.map Prod.snd :=
      List.mem_map_of_mem _ he
    rw [flow_targets] at hmem
    rw [flow_ids]
    exact List.mem_cons_of_mem _ hmem

/-- C3: for every business-type string and every resolved step catalog,
the synthesized graph is acyclic, `start` is its unique zero-indegree
node, every edge joins existing nodes, and every non-start node has
exactly one incoming edge, which comes from its sequential predecessor or
from its parent step (`parentOf`); `generate_formation_flow` is exactly
this synthesis applied to the catalog resolved for the business type. -/
theorem claim3_flow_graph_well_formed (bt : String) (steps : List Step) :
    flowWellFormed (generate_flow_from_steps (normalizeBT bt) steps) ∧
    generate_formation_flow bt =
      generate_flow_from_steps (normalizeBT bt) (get_formation_steps (normalizeBT bt)) := by
  refine ⟨⟨flow_acyclic _ _, ⟨?_, ?_⟩, flow_edge_mem _ _, ?_⟩, rfl⟩
  · rw [flow_ids]; exact List.mem_cons_self _ _
  · intro v hv
    constructor
    · intro h0
      by_contra hne
      rw [flow_indeg_nonstart _ _ v hv hne] at h0
      exact one_ne_zero h0
    · intro hstart
      subst hstart
      exact flow_indeg_start _ _
  · intro v hv hne
    refine ⟨flow_indeg_nonstart _ _ v hv hne, ?_⟩
    intro e he h2
    rw [← h2]
    exact flow_edge_parent _ _ e he

end WaBusiness
